import Mathlib

/-!
Verification of the Resource Lifecycle & Resilience Subsystem of the
mcp-software-engineer repository: a shallow embedding in Lean 4 of the
ResourceManager ledger, ConnectionPool, RateLimiter, ErrorHandler retry and
circuit-breaker combinators, and the MetricsCollector key/statistics logic,
together with proofs of the specified properties.

Times are modelled as natural-number milliseconds (JavaScript timestamps are
nonnegative and monotone in every behaviour considered here; the JS
comparison `now - t < windowMs` on a possibly negative difference agrees
with truncated Nat subtraction because a negative number is never greater
than a nonnegative bound).  JavaScript `Map` objects are modelled as
association lists in insertion order with `Map.set` / `Map.get` /
`Map.delete` semantics.
-/

namespace JsMap

/-- `Map.set`: replace the value at an existing key, else append at the end
(JS maps preserve insertion order). -/
def set {β : Type} (m : List (String × β)) (k : String) (v : β) :
    List (String × β) :=
  if m.any (fun p => p.1 == k) then
    m.map (fun p => if p.1 == k then (k, v) else p)
  else
    m ++ [(k, v)]

/-- `Map.get`: the value at a key, if present. -/
def get {β : Type} (m : List (String × β)) (k : String) : Option β :=
  (m.find? (fun p => p.1 == k)).map (fun p => p.2)

/-- `Map.delete`: remove the entry at a key. -/
def del {β : Type} (m : List (String × β)) (k : String) :
    List (String × β) :=
  m.filter (fun p => !(p.1 == k))


end JsMap

/-- Models JavaScript `String.prototype.includes` on the underlying
character lists. -/
def charsInclude : List Char → List Char → Bool
  | s@(_ :: t), pat => pat.isPrefixOf s || charsInclude t pat
  | [], pat => pat.isEmpty

/-- `s.includes(pat)` for Lean strings. -/
def strIncludes (s pat : String) : Bool :=
  charsInclude s.data pat.data

/-!
## Error taxonomy (errors.ts, `src/unnamed/part_005`)

Each constructor mirrors one error class; `name` mirrors
`this.name = this.constructor.name` and `message` the string built by the
constructor (`super(message)`).
-/

inductive JsError : Type
  /-- a plain `new Error(message)` -/
  | error (message : String)
  | timeoutError (operation : String) (timeoutMs : Nat)
  | externalServiceError (service : String) (message : String)
  | databaseError (message : String)
  | resourceExhaustedError (resourceType : String) (limit current : Nat)
  | validationError (message : String)
  deriving DecidableEq, Repr

namespace JsError

def name : JsError → String
  | .error _ => "Error"
  | .timeoutError _ _ => "TimeoutError"
  | .externalServiceError _ _ => "ExternalServiceError"
  | .databaseError _ => "DatabaseError"
  | .resourceExhaustedError _ _ _ => "ResourceExhaustedError"
  | .validationError _ => "ValidationError"

def message : JsError → String
  | .error m => m
  | .timeoutError op ms =>
      "Operation \x27" ++ op ++ "\x27 timed out after " ++ toString ms ++ "ms"
  | .externalServiceError service m =>
      "External service error (" ++ service ++ "): " ++ m
  | .databaseError m => m
  | .resourceExhaustedError rt limit current =>
      "Resource limit exceeded for " ++ rt ++ ": " ++ toString current ++
        "/" ++ toString limit
  | .validationError m => m

end JsError

deriving instance DecidableEq for Except

namespace ErrorHandler

/-- `ErrorHandler.shouldRetry` (part_005 lines 260-282): network-pattern
messages, `TimeoutError`/`ExternalServiceError` instances, and
`DatabaseError`s whose message mentions deadlock/timeout/connection. -/
def shouldRetry (e : JsError) : Bool :=
  if strIncludes e.message "ECONNREFUSED" ||
     strIncludes e.message "ETIMEDOUT" ||
     strIncludes e.message "ENOTFOUND" then
    true
  else
    match e with
    | .timeoutError _ _ => true
    | .externalServiceError _ _ => true
    | .databaseError _ =>
        strIncludes e.message "deadlock" ||
        strIncludes e.message "timeout" ||
        strIncludes e.message "connection"
    | _ => false

/-- Observable outcome of one `ErrorHandler.retry` run: the settled result,
the `(error, attempt)` arguments of each `onRetry` invocation, the backoff
delays that were slept, and the attempt numbers at which `operation` was
invoked. -/
structure RetryTrace (α : Type) where
  result : Except JsError α
  onRetryCalls : List (JsError × Nat)
  delays : List Nat
  attemptsMade : List Nat
  deriving Repr

/-- The `for (attempt = 1; attempt <= maxAttempts; ...)` loop body of
`ErrorHandler.retry` (part_005 lines 224-252).  `rest` is the number of
attempts still allowed after the current one (`maxAttempts - attempt`);
the operation is an oracle from attempt number to outcome. -/
def retryGo {α : Type} (op : Nat → Except JsError α)
    (initialDelay maxDelay factor : Nat) :
    Nat → Nat → RetryTrace α
  | attempt, 0 =>
    match op attempt with
    | .ok v => ⟨.ok v, [], [], [attempt]⟩
    | .error e => ⟨.error e, [], [], [attempt]⟩
  | attempt, rest + 1 =>
    match op attempt with
    | .ok v => ⟨.ok v, [], [], [attempt]⟩
    | .error e =>
      if shouldRetry e then
        let d := min (initialDelay * factor ^ (attempt - 1)) maxDelay
        let t := retryGo op initialDelay maxDelay factor (attempt + 1) rest
        ⟨t.result, (e, attempt) :: t.onRetryCalls, d :: t.delays,
          attempt :: t.attemptsMade⟩
      else
        ⟨.error e, [], [], [attempt]⟩

/-- `ErrorHandler.retry` with explicit options (defaults in the source:
maxAttempts 3, initialDelay 100, maxDelay 5000, factor 2).  With
`maxAttempts = 0` the loop never runs and the trailing
`throw lastError!` throws an undefined value. -/
def retry {α : Type} (op : Nat → Except JsError α)
    (maxAttempts initialDelay maxDelay factor : Nat) : RetryTrace α :=
  match maxAttempts with
  | 0 => ⟨.error (.error "undefined"), [], [], []⟩
  | m + 1 => retryGo op initialDelay maxDelay factor 1 m

/-!
## Circuit breaker (`ErrorHandler.createCircuitBreaker`, part_005 287-344)

The wrapped call races the operation against an internal timeout; a timeout
rejection is just one kind of failure, so one wrapped invocation is
abstracted by its observed outcome (`success` when the race settles with the
operation value, `failure` when it settles with any rejection).
-/

inductive CBPhase : Type
  | closed
  | opened
  | halfOpen
  deriving DecidableEq, Repr

/-- The closure state of a breaker: `failures`, `lastFailureTime`, `state`. -/
structure CBState where
  failures : Nat
  lastFailureTime : Nat
  state : CBPhase
  deriving DecidableEq, Repr

structure CBConfig where
  threshold : Nat
  timeout : Nat
  resetTimeout : Nat
  deriving DecidableEq, Repr

/-- What one wrapped call did: rejected fail-fast without executing `fn`,
returned `fn`'s value, or executed and rethrew the failure. -/
inductive CBResult : Type
  | rejected
  | ok
  | errored
  deriving DecidableEq, Repr

inductive CBOutcome : Type
  | success
  | failure
  deriving DecidableEq, Repr

/-- One invocation of the function returned by `createCircuitBreaker`, at
time `now`, where racing `fn` against the timeout would settle with
`outcome`. -/
def cbCall (cfg : CBConfig) (s : CBState) (now : Nat) (outcome : CBOutcome) :
    CBResult × CBState :=
  -- Check if circuit should be reset
  let s := if s.state = .opened ∧ now - s.lastFailureTime > cfg.resetTimeout
    then { s with state := .halfOpen, failures := 0 }
    else s
  -- If circuit is open, fail fast
  if s.state = .opened then
    (.rejected, s)
  else
    match outcome with
    | .success =>
      let st := if s.state = .halfOpen then CBPhase.closed else s.state
      (.ok, { s with state := st, failures := 0 })
    | .failure =>
      let f := s.failures + 1
      let st := if f ≥ cfg.threshold then CBPhase.opened else s.state
      (.errored, { failures := f, lastFailureTime := now, state := st })

/-- Fold a sequence of timed call outcomes through the breaker. -/
def cbRun (cfg : CBConfig) (s : CBState) :
    List (Nat × CBOutcome) → CBState
  | [] => s
  | (now, outcome) :: rest => cbRun cfg (cbCall cfg s now outcome).2 rest

/-- Initial breaker closure: `failures = 0`, `lastFailureTime = 0`,
`state = closed`. -/
def cbInit : CBState := ⟨0, 0, .closed⟩

/-- A trace of `n` failure/success pairs: failures that are never
consecutive. -/
def altTrace : Nat → List (Nat × CBOutcome)
  | 0 => []
  | n + 1 => (0, .failure) :: (0, .success) :: altTrace n


end ErrorHandler

/-!
## RateLimiter (`src/config/security.ts` 167-220)
-/

structure RateLimiter where
  requests : List (String × List Nat)
  windowMs : Nat
  maxRequests : Nat
  deriving DecidableEq, Repr

namespace RateLimiter

/-- The identifier's stored timestamps filtered to the live window, exactly
as computed at the top of `isAllowed`. -/
def recentRequests (rl : RateLimiter) (identifier : String) (now : Nat) :
    List Nat :=
  ((JsMap.get rl.requests identifier).getD []).filter
    (fun time => now - time < rl.windowMs)

/-- `RateLimiter.isAllowed` (security.ts 183-200): sliding-window check,
returning the decision and the successor limiter state. -/
def isAllowed (rl : RateLimiter) (identifier : String) (now : Nat) :
    Bool × RateLimiter :=
  let recent := recentRequests rl identifier now
  if recent.length ≥ rl.maxRequests then
    (false, rl)
  else
    (true,
      { rl with
        requests := JsMap.set rl.requests identifier (recent ++ [now]) })

/-- A sequence of `isAllowed` calls for one identifier at the given times,
threading the limiter state and collecting the decisions. -/
def runCalls (rl : RateLimiter) (id : String) :
    List Nat → List Bool × RateLimiter
  | [] => ([], rl)
  | t :: ts =>
    let r := isAllowed rl id t
    let rest := runCalls r.2 id ts
    (r.1 :: rest.1, rest.2)


end RateLimiter

/-!
## ResourceManager ledger (`src/unnamed/part_004` 10-307)

Handles are abstracted to the one bit each teardown path observes: whether
the process is already dead / the kill, close, or clearTimeout call throws.
The `process.once(exit, ...)` auto-unregister listener and the delayed
SIGKILL are owner-side events outside these claims and are not modelled.
-/

/-- A `ChildProcess` handle as seen by the ledger: the `killed` flag and
whether `kill` throws. -/
structure ProcHandle where
  killed : Bool
  killThrows : Bool
  deriving DecidableEq, Repr

/-- A connection handle as seen by `unregisterConnection`: whether its
close/end/disconnect call rejects. -/
structure ConnHandle where
  closeThrows : Bool
  deriving DecidableEq, Repr

/-- A file handle as seen by `unregisterFileHandle`. -/
structure FileHandle where
  closeThrows : Bool
  deriving DecidableEq, Repr

structure ResourceManager where
  processes : List (String × ProcHandle)
  timers : List (String × Unit)
  connections : List (String × ConnHandle)
  fileHandles : List (String × FileHandle)
  memoryUsage : Nat
  deriving DecidableEq, Repr

namespace ResourceManager

/-- The hardcoded `limits` record of the ledger. -/
def maxProcesses : Nat := 10
def maxConnections : Nat := 100
def maxFileHandles : Nat := 50
def maxTimers : Nat := 100

def empty : ResourceManager := ⟨[], [], [], [], 0⟩

/-- `registerProcess` (part_004 52-64): throws a plain `Error` at the cap,
otherwise stores the handle. -/
def registerProcess (rm : ResourceManager) (id : String) (h : ProcHandle) :
    Except JsError ResourceManager :=
  if rm.processes.length ≥ maxProcesses then
    .error (.error "Maximum number of processes reached")
  else
    .ok { rm with processes := JsMap.set rm.processes id h }

/-- `unregisterProcess` (part_004 69-87): the graceful/forced kill is an
effect on the OS process; the ledger deletes the entry iff present. -/
def unregisterProcess (rm : ResourceManager) (id : String) :
    ResourceManager :=
  match JsMap.get rm.processes id with
  | some _ => { rm with processes := JsMap.del rm.processes id }
  | none => rm

/-- `registerTimer` (part_004 92-98). -/
def registerTimer (rm : ResourceManager) (id : String) :
    Except JsError ResourceManager :=
  if rm.timers.length ≥ maxTimers then
    .error (.error "Maximum number of timers reached")
  else
    .ok { rm with timers := JsMap.set rm.timers id () }

/-- `unregisterTimer` (part_004 103-109). -/
def unregisterTimer (rm : ResourceManager) (id : String) :
    ResourceManager :=
  match JsMap.get rm.timers id with
  | some _ => { rm with timers := JsMap.del rm.timers id }
  | none => rm

/-- `registerConnection` (part_004 114-121). -/
def registerConnection (rm : ResourceManager) (id : String)
    (h : ConnHandle) : Except JsError ResourceManager :=
  if rm.connections.length ≥ maxConnections then
    .error (.error "Maximum number of connections reached")
  else
    .ok { rm with connections := JsMap.set rm.connections id h }

/-- The close/end/disconnect attempt performed by `unregisterConnection`. -/
def closeConnection (h : ConnHandle) : Except JsError Unit :=
  if h.closeThrows then .error (.error "close failed") else .ok ()

/-- A `try { ... } catch (error) { logger... }` around a teardown call:
the failure is logged and swallowed. -/
def attemptTeardown (e : Except JsError Unit) : Unit :=
  match e with
  | .ok _ => ()
  | .error _ => ()

/-- `unregisterConnection` (part_004 126-145): the close error is caught
and logged; the entry is deleted iff present.  The function itself never
rejects. -/
def unregisterConnection (rm : ResourceManager) (id : String) :
    ResourceManager :=
  match JsMap.get rm.connections id with
  | some h =>
    let _ := attemptTeardown (closeConnection h)
    { rm with connections := JsMap.del rm.connections id }
  | none => rm

/-- `registerFileHandle` (part_004 150-156). -/
def registerFileHandle (rm : ResourceManager) (id : String)
    (h : FileHandle) : Except JsError ResourceManager :=
  if rm.fileHandles.length ≥ maxFileHandles then
    .error (.error "Maximum number of file handles reached")
  else
    .ok { rm with fileHandles := JsMap.set rm.fileHandles id h }

def closeFileHandle (h : FileHandle) : Except JsError Unit :=
  if h.closeThrows then .error (.error "close failed") else .ok ()

/-- `unregisterFileHandle` (part_004 161-174). -/
def unregisterFileHandle (rm : ResourceManager) (id : String) :
    ResourceManager :=
  match JsMap.get rm.fileHandles id with
  | some h =>
    let _ := attemptTeardown (closeFileHandle h)
    { rm with fileHandles := JsMap.del rm.fileHandles id }
  | none => rm

structure Usage where
  processes : Nat
  connections : Nat
  fileHandles : Nat
  timers : Nat
  memoryMB : Nat
  deriving DecidableEq, Repr

/-- `getUsage` (part_004 203-217). -/
def getUsage (rm : ResourceManager) : Usage :=
  ⟨rm.processes.length, rm.connections.length, rm.fileHandles.length,
    rm.timers.length, rm.memoryUsage⟩

/-- `kill(SIGTERM)` on a tracked process, as wrapped in `cleanup`. -/
def killProcess (h : ProcHandle) : Except JsError Unit :=
  if h.killed then .ok ()
  else if h.killThrows then .error (.error "kill failed") else .ok ()

/-- `cleanup` (part_004 222-260): best-effort kill of every process (each
in its own try/catch), clearTimeout on every timer, `Promise.allSettled`
over `unregisterConnection` / `unregisterFileHandle` on the key snapshots,
then `.clear()` on all four maps.  It returns a resolved promise for every
ledger state. -/
def cleanup (rm : ResourceManager) : Except JsError ResourceManager :=
  -- Kill all processes
  let _ := rm.processes.map (fun p => attemptTeardown (killProcess p.2))
  -- Clear all timers (clearTimeout does not throw)
  -- Close all connections
  let rm1 := rm.connections.foldl
    (fun acc p => unregisterConnection acc p.1) rm
  -- Close all file handles
  let rm2 := rm1.fileHandles.foldl
    (fun acc p => unregisterFileHandle acc p.1) rm1
  -- Clear maps
  .ok { rm2 with
    processes := [], timers := [], connections := [], fileHandles := [] }

/-- A register/unregister call against the ledger; register calls carry the
handle being stored. -/
inductive ROp : Type
  | regProcess (id : String) (h : ProcHandle)
  | unregProcess (id : String)
  | regTimer (id : String)
  | unregTimer (id : String)
  | regConnection (id : String) (h : ConnHandle)
  | unregConnection (id : String)
  | regFileHandle (id : String) (h : FileHandle)
  | unregFileHandle (id : String)
  deriving DecidableEq, Repr

/-- Apply one call; a register call that throws leaves the ledger
unchanged (the exception propagates to the caller). -/
def applyOp (rm : ResourceManager) : ROp → ResourceManager
  | .regProcess id h => ((registerProcess rm id h).toOption).getD rm
  | .unregProcess id => unregisterProcess rm id
  | .regTimer id => ((registerTimer rm id).toOption).getD rm
  | .unregTimer id => unregisterTimer rm id
  | .regConnection id h => ((registerConnection rm id h).toOption).getD rm
  | .unregConnection id => unregisterConnection rm id
  | .regFileHandle id h => ((registerFileHandle rm id h).toOption).getD rm
  | .unregFileHandle id => unregisterFileHandle rm id

def applyOps (rm : ResourceManager) (ops : List ROp) : ResourceManager :=
  ops.foldl applyOp rm

/-- The per-kind cap invariant of the ledger. -/
def WithinCaps (rm : ResourceManager) : Prop :=
  rm.processes.length ≤ maxProcesses ∧
  rm.timers.length ≤ maxTimers ∧
  rm.connections.length ≤ maxConnections ∧
  rm.fileHandles.length ≤ maxFileHandles

instance : DecidablePred WithinCaps := fun rm => by
  unfold WithinCaps
  infer_instance

/-- A ledger at the process cap: ten registered processes. -/
def atProcessCap : ResourceManager :=
  ⟨[("0", ⟨false, false⟩), ("1", ⟨false, false⟩), ("2", ⟨false, false⟩),
    ("3", ⟨false, false⟩), ("4", ⟨false, false⟩), ("5", ⟨false, false⟩),
    ("6", ⟨false, false⟩), ("7", ⟨false, false⟩), ("8", ⟨false, false⟩),
    ("9", ⟨false, false⟩)], [], [], [], 0⟩

/-- A ledger with every kind at its cap. -/
def atAllCaps : ResourceManager :=
  ⟨(List.range 10).map (fun i => (toString i, ⟨false, false⟩)),
    (List.range 100).map (fun i => (toString i, ())),
    (List.range 100).map (fun i => (toString i, ⟨false⟩)),
    (List.range 50).map (fun i => (toString i, ⟨false⟩)), 0⟩


end ResourceManager

/-!
## ConnectionPool (`src/unnamed/part_004` 313-410)

Connections are abstracted to `Nat` tokens.  `acquire` is modelled as one
iteration of its poll loop: pop the last available entry, else create one
when under `maxSize`, else leave the state unchanged and go back to
waiting.  The side registration of the acquired connection in the global
`resourceManager` singleton touches only the ledger, not the pool fields,
and is omitted here.
-/

structure ConnectionPool where
  available : List Nat
  inUse : List (String × Nat)
  minSize : Nat
  maxSize : Nat
  deriving DecidableEq, Repr

namespace ConnectionPool

/-- `Array.prototype.pop`: the last element and the remaining array. -/
def popLast (l : List Nat) : Option (Nat × List Nat) :=
  match l.getLast? with
  | some c => some (c, l.dropLast)
  | none => none

/-- The constructor plus `initialize` (part_004 321-351): `minSize`
creations are attempted and the fulfilled ones (`results`, in order, with
`none` for a rejected creation) are pushed into `available`. -/
def init (minSize maxSize : Nat) (results : List (Option Nat)) :
    ConnectionPool :=
  ⟨results.filterMap id, [], minSize, maxSize⟩

/-- One iteration of `acquire` (part_004 357-378): `id` is the generated
`conn_...` identifier and `fresh` the connection `createFn` would return.
`none` means this iteration found the pool exhausted and waits 100ms
before retrying. -/
def acquire (pool : ConnectionPool) (id : String) (fresh : Nat) :
    Option (String × Nat) × ConnectionPool :=
  match popLast pool.available with
  | some (c, rest) =>
    (some (id, c),
      { pool with available := rest, inUse := JsMap.set pool.inUse id c })
  | none =>
    if pool.inUse.length < pool.maxSize then
      (some (id, fresh),
        { pool with inUse := JsMap.set pool.inUse id fresh })
    else
      (none, pool)

/-- `release` (part_004 380-396): an id not in `inUse` is a no-op; else the
entry is removed and pushed back when `available` is under `maxSize`,
otherwise destroyed. -/
def release (pool : ConnectionPool) (id : String) : ConnectionPool :=
  match JsMap.get pool.inUse id with
  | some c =>
    let pool := { pool with inUse := JsMap.del pool.inUse id }
    if pool.available.length < pool.maxSize then
      { pool with available := pool.available ++ [c] }
    else
      pool
  | none => pool

/-- The pool size invariant from the spec data model. -/
def SizeInv (pool : ConnectionPool) : Prop :=
  pool.available.length + pool.inUse.length ≤ pool.maxSize

instance : DecidablePred SizeInv := fun pool => by
  unfold SizeInv
  infer_instance

end ConnectionPool

/-!
## MetricsCollector (`src/monitoring/metrics.ts` 10-329)

Tag records (`Record<string, any>`) are modelled as association lists of
tag name to stringified value, with pairwise-distinct names (object keys
are unique).  `getKey` sorts the entries by tag name; `localeCompare` is
modelled by the total order on Lean strings — every claim below depends
only on the comparator being a total order, not on its specific collation.
Metric values and durations are integers resp. naturals; the derived
`avgTime`/`errorRate` quotients live in `ℚ`.
-/

/-- Lexicographic comparison of character lists by code point; the
executable order underlying the tag-name sort. -/
def charListLe : List Char → List Char → Bool
  | [], _ => true
  | _ :: _, [] => false
  | a :: as, b :: bs =>
    if a < b then true
    else if b < a then false
    else charListLe as bs

/-- Comparison of tag entries by tag name, as in
`.sort(([a], [b]) => a.localeCompare(b))`; `localeCompare` is modelled by
code-point comparison, a total order on tag names. -/
def tagLe (a b : String × String) : Prop :=
  charListLe a.1.data b.1.data = true

instance : DecidableRel tagLe := fun a b =>
  inferInstanceAs (Decidable (charListLe a.1.data b.1.data = true))

def sortTags (tags : List (String × String)) : List (String × String) :=
  List.insertionSort tagLe tags

/-- `MetricsCollector.getKey` (metrics.ts 286-297). -/
def getKey (name : String) (tags : List (String × String)) : String :=
  if tags.isEmpty then
    name
  else
    name ++ "\x7b" ++
      String.intercalate ","
        ((sortTags tags).map (fun p => p.1 ++ ":" ++ p.2)) ++
      "\x7d"

/-- One entry of `operationStats`; `minTime = none` models the initial
`Infinity`. -/
structure OperationStat where
  count : Nat
  totalTime : Nat
  minTime : Option Nat
  maxTime : Nat
  errors : Nat
  deriving DecidableEq, Repr

structure MetricsCollector where
  counters : List (String × Int)
  gauges : List (String × Int)
  histograms : List (String × List Int)
  operationStats : List (String × OperationStat)
  deriving DecidableEq, Repr

namespace MetricsCollector

def empty : MetricsCollector := ⟨[], [], [], []⟩

/-- `increment` (metrics.ts 67-71). -/
def increment (mc : MetricsCollector) (name : String) (value : Int)
    (tags : List (String × String)) : MetricsCollector :=
  let key := getKey name tags
  let current := (JsMap.get mc.counters key).getD 0
  { mc with counters := JsMap.set mc.counters key (current + value) }

/-- `gauge` (metrics.ts 76-79). -/
def gauge (mc : MetricsCollector) (name : String) (value : Int)
    (tags : List (String × String)) : MetricsCollector :=
  let key := getKey name tags
  { mc with gauges := JsMap.set mc.gauges key value }

/-- `histogram` (metrics.ts 84-95): append, then evict the oldest sample
beyond the 1000 bound. -/
def histogram (mc : MetricsCollector) (name : String) (value : Int)
    (tags : List (String × String)) : MetricsCollector :=
  let key := getKey name tags
  let values := ((JsMap.get mc.histograms key).getD []) ++ [value]
  let values := if values.length > 1000 then values.tail else values
  { mc with histograms := JsMap.set mc.histograms key values }

/-- `recordOperation` (metrics.ts 114-136). -/
def recordOperation (mc : MetricsCollector) (name : String)
    (duration : Nat) (error : Bool) (tags : List (String × String)) :
    MetricsCollector :=
  let key := getKey name tags
  let stats := (JsMap.get mc.operationStats key).getD ⟨0, 0, none, 0, 0⟩
  let stats : OperationStat :=
    { count := stats.count + 1
      totalTime := stats.totalTime + duration
      minTime := some (match stats.minTime with
        | none => duration
        | some m => min m duration)
      maxTime := max stats.maxTime duration
      errors := stats.errors + (if error then 1 else 0) }
  { mc with operationStats := JsMap.set mc.operationStats key stats }

/-- `getOperationStats` (metrics.ts 141-152): `null` for an unknown key,
else the stored stats together with `avgTime` and `errorRate`. -/
def getOperationStats (mc : MetricsCollector) (name : String)
    (tags : List (String × String)) : Option (OperationStat × ℚ × ℚ) :=
  (JsMap.get mc.operationStats (getKey name tags)).map
    (fun stats =>
      (stats, (stats.totalTime : ℚ) / (stats.count : ℚ),
        (stats.errors : ℚ) / (stats.count : ℚ)))

end MetricsCollector

/-!
# Supporting lemmas
-/

namespace JsMap

theorem set_length_le {β : Type} (m : List (String × β)) (k : String)
    (v : β) : (set m k v).length ≤ m.length + 1 := by
  unfold set
  by_cases h : m.any (fun p => p.1 == k)
  · simp [h]
  · simp [h]

theorem del_length_le {β : Type} (m : List (String × β)) (k : String) :
    (del m k).length ≤ m.length :=
  List.length_filter_le _ m

theorem del_length_lt {β : Type} (m : List (String × β)) (k : String)
    (h : (get m k).isSome) : (del m k).length < m.length := by
  induction m with
  | nil => simp [get, List.find?] at h
  | cons p t ih =>
    by_cases hp : p.1 == k
    · have hd : del (p :: t) k = del t k := by
        simp [del, List.filter, hp]
      rw [hd, List.length_cons]
      exact Nat.lt_succ_of_le (del_length_le t k)
    · have hg : get (p :: t) k = get t k := by
        simp [get, List.find?, hp]
      have hd : del (p :: t) k = p :: del t k := by
        simp [del, List.filter, hp]
      rw [hd, List.length_cons, List.length_cons]
      exact Nat.succ_lt_succ (ih (hg ▸ h))

end JsMap

theorem charListLe_total : ∀ l₁ l₂, charListLe l₁ l₂ = true ∨
    charListLe l₂ l₁ = true
  | [], _ => Or.inl rfl
  | _ :: _, [] => Or.inr rfl
  | a :: as, b :: bs => by
    rcases lt_trichotomy a b with h | h | h
    · left
      simp [charListLe, h]
    · subst h
      rcases charListLe_total as bs with h | h <;>
        simp [charListLe, lt_irrefl, h]
    · right
      simp [charListLe, h]

theorem charListLe_trans : ∀ l₁ l₂ l₃, charListLe l₁ l₂ = true →
    charListLe l₂ l₃ = true → charListLe l₁ l₃ = true
  | [], _, _, _, _ => rfl
  | _ :: _, [], _, h₁, _ => by simp [charListLe] at h₁
  | _ :: _, _ :: _, [], _, h₂ => by simp [charListLe] at h₂
  | a :: as, b :: bs, c :: cs, h₁, h₂ => by
    rcases lt_trichotomy a b with hab | hab | hab
    · rcases lt_trichotomy b c with hbc | hbc | hbc
      · simp [charListLe, lt_trans hab hbc]
      · subst hbc
        simp [charListLe, hab]
      · simp [charListLe, hbc, not_lt_of_gt hbc] at h₂
    · subst hab
      rcases lt_trichotomy a c with hac | hac | hac
      · simp [charListLe, hac]
      · subst hac
        simp [charListLe, lt_irrefl] at h₁ h₂ ⊢
        exact charListLe_trans as bs cs h₁ h₂
      · simp [charListLe, hac, not_lt_of_gt hac] at h₂
    · simp [charListLe, hab, not_lt_of_gt hab] at h₁

theorem charListLe_antisymm : ∀ l₁ l₂, charListLe l₁ l₂ = true →
    charListLe l₂ l₁ = true → l₁ = l₂
  | [], [], _, _ => rfl
  | [], _ :: _, _, h₂ => by simp [charListLe] at h₂
  | _ :: _, [], h₁, _ => by simp [charListLe] at h₁
  | a :: as, b :: bs, h₁, h₂ => by
    rcases lt_trichotomy a b with hab | hab | hab
    · simp [charListLe, hab, not_lt_of_gt hab] at h₂
    · subst hab
      simp [charListLe, lt_irrefl] at h₁ h₂
      rw [charListLe_antisymm as bs h₁ h₂]
    · simp [charListLe, hab, not_lt_of_gt hab] at h₁

instance : IsTotal (String × String) tagLe :=
  ⟨fun a b => charListLe_total a.1.data b.1.data⟩

instance : IsTrans (String × String) tagLe :=
  ⟨fun _ _ _ h₁ h₂ => charListLe_trans _ _ _ h₁ h₂⟩

/-!
# Claims
-/

/-- C6: retry with `maxAttempts = 3` applied to an operation whose first
two invocations throw retryable errors and whose third invocation returns
`v` resolves to `v`, and `onRetry` is invoked exactly twice, once after
each failed attempt (with that attempt's error and number). -/
theorem retry_two_failures_then_success {α : Type}
    (op : Nat → Except JsError α) (e₁ e₂ : JsError) (v : α)
    (initialDelay maxDelay factor : Nat)
    (h1 : op 1 = .error e₁) (hr1 : ErrorHandler.shouldRetry e₁ = true)
    (h2 : op 2 = .error e₂) (hr2 : ErrorHandler.shouldRetry e₂ = true)
    (h3 : op 3 = .ok v) :
    (ErrorHandler.retry op 3 initialDelay maxDelay factor).result =
        .ok v ∧
    (ErrorHandler.retry op 3 initialDelay maxDelay factor).onRetryCalls =
        [(e₁, 1), (e₂, 2)] := by
  simp [ErrorHandler.retry, ErrorHandler.retryGo, h1, h2, h3, hr1, hr2]

theorem retry_two_failures_then_success_witness :
    (ErrorHandler.retry
        (fun n => if n = 3 then Except.ok 42
          else Except.error (JsError.timeoutError "op" 5))
        3 100 5000 2).result = .ok 42 ∧
    (ErrorHandler.retry
        (fun n => if n = 3 then Except.ok 42
          else Except.error (JsError.timeoutError "op" 5))
        3 100 5000 2).onRetryCalls =
      [(JsError.timeoutError "op" 5, 1), (JsError.timeoutError "op" 5, 2)] :=
  retry_two_failures_then_success
    (fun n => if n = 3 then Except.ok 42
      else Except.error (JsError.timeoutError "op" 5))
    (JsError.timeoutError "op" 5) (JsError.timeoutError "op" 5) 42
    100 5000 2 rfl (by decide) rfl (by decide) rfl

/-- C7: with `maxAttempts ≥ 2`, a first-attempt error that `shouldRetry`
classifies as non-retryable is rethrown immediately: the operation runs
exactly once (attempt 1), `onRetry` is never invoked, and no backoff delay
is slept. -/
theorem retry_nonretryable_propagates {α : Type}
    (op : Nat → Except JsError α) (e : JsError)
    (maxAttempts initialDelay maxDelay factor : Nat)
    (h1 : op 1 = .error e) (hnr : ErrorHandler.shouldRetry e = false)
    (hma : 2 ≤ maxAttempts) :
    ErrorHandler.retry op maxAttempts initialDelay maxDelay factor =
      ⟨.error e, [], [], [1]⟩ := by
  obtain ⟨m, rfl⟩ : ∃ m, maxAttempts = m + 2 :=
    ⟨maxAttempts - 2, by omega⟩
  simp [ErrorHandler.retry, ErrorHandler.retryGo, h1, hnr]

theorem retry_nonretryable_propagates_witness :
    ErrorHandler.retry
        (fun _ => (Except.error (JsError.validationError "bad input") :
          Except JsError Nat)) 3 100 5000 2 =
      ⟨.error (JsError.validationError "bad input"), [], [], [1]⟩ :=
  retry_nonretryable_propagates
    (fun _ => Except.error (JsError.validationError "bad input"))
    (JsError.validationError "bad input") 3 100 5000 2
    rfl (by decide) (by decide)

namespace ResourceManager

theorem withinCaps_empty : WithinCaps empty := by
  refine ⟨?_, ?_, ?_, ?_⟩ <;>
    simp [empty, maxProcesses, maxTimers, maxConnections, maxFileHandles]

theorem applyOp_withinCaps (rm : ResourceManager) (op : ROp)
    (h : WithinCaps rm) : WithinCaps (applyOp rm op) := by
  obtain ⟨hp, ht, hc, hf⟩ := h
  cases op with
  | regProcess id hd =>
    by_cases hcap : rm.processes.length ≥ maxProcesses
    · simpa [applyOp, registerProcess, hcap] using ⟨hp, ht, hc, hf⟩
    · have hl := JsMap.set_length_le rm.processes id hd
      refine ⟨?_, ?_, ?_, ?_⟩ <;>
        simp [applyOp, registerProcess, hcap, Except.toOption, ht, hc, hf] <;>
        omega
  | unregProcess id =>
    have hl := JsMap.del_length_le rm.processes id
    cases hg : JsMap.get rm.processes id <;>
      refine ⟨?_, ?_, ?_, ?_⟩ <;>
      simp [applyOp, unregisterProcess, hg, ht, hc, hf] <;> omega
  | regTimer id =>
    by_cases hcap : rm.timers.length ≥ maxTimers
    · simpa [applyOp, registerTimer, hcap] using ⟨hp, ht, hc, hf⟩
    · have hl := JsMap.set_length_le rm.timers id ()
      refine ⟨?_, ?_, ?_, ?_⟩ <;>
        simp [applyOp, registerTimer, hcap, Except.toOption, hp, hc, hf] <;>
        omega
  | unregTimer id =>
    have hl := JsMap.del_length_le rm.timers id
    cases hg : JsMap.get rm.timers id <;>
      refine ⟨?_, ?_, ?_, ?_⟩ <;>
      simp [applyOp, unregisterTimer, hg, hp, hc, hf] <;> omega
  | regConnection id hd =>
    by_cases hcap : rm.connections.length ≥ maxConnections
    · simpa [applyOp, registerConnection, hcap] using ⟨hp, ht, hc, hf⟩
    · have hl := JsMap.set_length_le rm.connections id hd
      refine ⟨?_, ?_, ?_, ?_⟩ <;>
        simp [applyOp, registerConnection, hcap, Except.toOption,
          hp, ht, hf] <;>
        omega
  | unregConnection id =>
    have hl := JsMap.del_length_le rm.connections id
    cases hg : JsMap.get rm.connections id <;>
      refine ⟨?_, ?_, ?_, ?_⟩ <;>
      simp [applyOp, unregisterConnection, hg, hp, ht, hf] <;> omega
  | regFileHandle id hd =>
    by_cases hcap : rm.fileHandles.length ≥ maxFileHandles
    · simpa [applyOp, registerFileHandle, hcap] using ⟨hp, ht, hc, hf⟩
    · have hl := JsMap.set_length_le rm.fileHandles id hd
      refine ⟨?_, ?_, ?_, ?_⟩ <;>
        simp [applyOp, registerFileHandle, hcap, Except.toOption,
          hp, ht, hc] <;>
        omega
  | unregFileHandle id =>
    have hl := JsMap.del_length_le rm.fileHandles id
    cases hg : JsMap.get rm.fileHandles id <;>
      refine ⟨?_, ?_, ?_, ?_⟩ <;>
      simp [applyOp, unregisterFileHandle, hg, hp, ht, hc] <;> omega

theorem applyOps_withinCaps (ops : List ROp) :
    ∀ rm, WithinCaps rm → WithinCaps (applyOps rm ops) := by
  induction ops with
  | nil => intro rm h; exact h
  | cons op rest ih =>
    intro rm h
    exact ih (applyOp rm op) (applyOp_withinCaps rm op h)


end ResourceManager

/-- C2 counterexample: with the process kind at its cap of 10, `register`
does fail, but the thrown value is a plain `Error` whose `name` is
`"Error"`, not a `ResourceExhaustedError` — refuting the claimed error
type at this concrete input. -/
theorem register_at_cap_throws_plain_error :
    ResourceManager.registerProcess ResourceManager.atProcessCap "p10"
        ⟨false, false⟩ =
      .error (.error "Maximum number of processes reached") ∧
    (JsError.error "Maximum number of processes reached").name = "Error" ∧
    (JsError.error "Maximum number of processes reached").name ≠
      "ResourceExhaustedError" := by
  refine ⟨by decide, by decide, by decide⟩

/-- C2 (amended): for every sequence of register/unregister calls the
per-kind counts never exceed the caps, and a register call made at or
beyond a kind's cap always fails — but by throwing a plain `Error` with
message `Maximum number of <kind> reached`, not `ResourceExhaustedError`
(which the code defines but never throws). -/
theorem ledger_caps_never_exceeded
    (ops : List ResourceManager.ROp) (rm : ResourceManager)
    (id : String) (ph : ProcHandle) (ch : ConnHandle) (fh : FileHandle)
    (hp : rm.processes.length ≥ ResourceManager.maxProcesses)
    (ht : rm.timers.length ≥ ResourceManager.maxTimers)
    (hc : rm.connections.length ≥ ResourceManager.maxConnections)
    (hf : rm.fileHandles.length ≥ ResourceManager.maxFileHandles) :
    ResourceManager.WithinCaps
        (ResourceManager.applyOps ResourceManager.empty ops) ∧
    ResourceManager.registerProcess rm id ph =
      .error (.error "Maximum number of processes reached") ∧
    ResourceManager.registerTimer rm id =
      .error (.error "Maximum number of timers reached") ∧
    ResourceManager.registerConnection rm id ch =
      .error (.error "Maximum number of connections reached") ∧
    ResourceManager.registerFileHandle rm id fh =
      .error (.error "Maximum number of file handles reached") := by
  refine ⟨ResourceManager.applyOps_withinCaps ops _
    ResourceManager.withinCaps_empty, ?_, ?_, ?_, ?_⟩
  · simp [ResourceManager.registerProcess, hp]
  · simp [ResourceManager.registerTimer, ht]
  · simp [ResourceManager.registerConnection, hc]
  · simp [ResourceManager.registerFileHandle, hf]

/-- C8: `cleanup()` resolves on every ledger state — per-resource kill and
close failures are caught or settled — and the resulting ledger reports
zero for every resource kind. -/
theorem cleanup_resolves_and_zeroes_usage (rm : ResourceManager) :
    ∃ rm', ResourceManager.cleanup rm = .ok rm' ∧
      (ResourceManager.getUsage rm').processes = 0 ∧
      (ResourceManager.getUsage rm').connections = 0 ∧
      (ResourceManager.getUsage rm').fileHandles = 0 ∧
      (ResourceManager.getUsage rm').timers = 0 := by
  refine ⟨_, rfl, ?_, ?_, ?_, ?_⟩ <;>
    simp [ResourceManager.cleanup, ResourceManager.getUsage]

namespace ConnectionPool

theorem popLast_some {l rest : List Nat} {c : Nat}
    (h : popLast l = some (c, rest)) : rest.length + 1 = l.length := by
  unfold popLast at h
  cases hg : l.getLast? with
  | none => rw [hg] at h; cases h
  | some x =>
    rw [hg] at h
    cases h
    have hne : l ≠ [] := by
      intro he
      subst he
      simp at hg
    have := List.length_dropLast l
    have hlen : 1 ≤ l.length := by
      cases l with
      | nil => exact absurd rfl hne
      | cons a t => simp
    omega

theorem popLast_none {l : List Nat} (h : popLast l = none) : l = [] := by
  unfold popLast at h
  cases hg : l.getLast? with
  | none => exact List.getLast?_eq_none_iff.mp hg
  | some x => rw [hg] at h; cases h

theorem init_sizeInv (minSize maxSize : Nat) (results : List (Option Nat))
    (hmin : minSize ≤ maxSize) (hlen : results.length = minSize) :
    SizeInv (init minSize maxSize results) := by
  unfold SizeInv init
  have := List.length_filterMap_le id results
  simp only [List.length_nil]
  omega

theorem acquire_sizeInv (pool : ConnectionPool) (id : String) (fresh : Nat)
    (h : SizeInv pool) : SizeInv (acquire pool id fresh).2 := by
  unfold SizeInv at h ⊢
  unfold acquire
  cases hp : popLast pool.available with
  | some pr =>
    obtain ⟨c, rest⟩ := pr
    have hlen := popLast_some hp
    have hset := JsMap.set_length_le pool.inUse id c
    simp only
    omega
  | none =>
    by_cases hin : pool.inUse.length < pool.maxSize
    · have hset := JsMap.set_length_le pool.inUse id fresh
      have hav : pool.available = [] := popLast_none hp
      simp only [hin, if_pos, hav]
      simp
      omega
    · simp only [hin]
      simp
      omega

theorem release_sizeInv (pool : ConnectionPool) (id : String)
    (h : SizeInv pool) : SizeInv (release pool id) := by
  unfold SizeInv at h ⊢
  unfold release
  cases hg : JsMap.get pool.inUse id with
  | some c =>
    have hdel : (JsMap.del pool.inUse id).length < pool.inUse.length :=
      JsMap.del_length_lt pool.inUse id (by rw [hg]; rfl)
    by_cases hav : pool.available.length < pool.maxSize
    · simp only [hav, if_pos]
      simp
      omega
    · simp only [hav]
      simp
      omega
  | none =>
    simp only
    omega

theorem release_unacquired_noop (pool : ConnectionPool) (id : String)
    (h : JsMap.get pool.inUse id = none) : release pool id = pool := by
  unfold release
  rw [h]

end ConnectionPool

/-- C3: for a pool built with `minSize ≤ maxSize` (its `minSize` eager
creations yielding any mix of successes and failures), the invariant
`available.length + inUse.size ≤ maxSize` holds initially and is preserved
by every `acquire` and `release` step, and `release` of an id that was
never acquired is a no-op. -/
theorem pool_size_invariant (minSize maxSize : Nat)
    (results : List (Option Nat)) (pool : ConnectionPool) (id : String)
    (fresh : Nat) (hmin : minSize ≤ maxSize)
    (hlen : results.length = minSize)
    (hinv : ConnectionPool.SizeInv pool) :
    ConnectionPool.SizeInv (ConnectionPool.init minSize maxSize results) ∧
    ConnectionPool.SizeInv (ConnectionPool.acquire pool id fresh).2 ∧
    ConnectionPool.SizeInv (ConnectionPool.release pool id) ∧
    (JsMap.get pool.inUse id = none →
      ConnectionPool.release pool id = pool) := by
  exact ⟨ConnectionPool.init_sizeInv minSize maxSize results hmin hlen,
    ConnectionPool.acquire_sizeInv pool id fresh hinv,
    ConnectionPool.release_sizeInv pool id hinv,
    fun hid => ConnectionPool.release_unacquired_noop pool id hid⟩

theorem pool_size_invariant_witness :
    (ConnectionPool.SizeInv (ConnectionPool.init 2 3 [some 7, none]) ∧
      ConnectionPool.SizeInv
        (ConnectionPool.acquire ⟨[7], [("c1", 8)], 2, 3⟩ "c1" 9).2 ∧
      ConnectionPool.SizeInv
        (ConnectionPool.release ⟨[7], [("c1", 8)], 2, 3⟩ "c1") ∧
      (JsMap.get [("c1", 8)] "c1" = none →
        ConnectionPool.release ⟨[7], [("c1", 8)], 2, 3⟩ "c1" =
          ⟨[7], [("c1", 8)], 2, 3⟩)) ∧
    (ConnectionPool.SizeInv (ConnectionPool.init 2 3 [some 7, none]) ∧
      ConnectionPool.SizeInv
        (ConnectionPool.acquire ⟨[7], [("c1", 8)], 2, 3⟩ "c2" 9).2 ∧
      ConnectionPool.SizeInv
        (ConnectionPool.release ⟨[7], [("c1", 8)], 2, 3⟩ "c2") ∧
      (JsMap.get [("c1", 8)] "c2" = none →
        ConnectionPool.release ⟨[7], [("c1", 8)], 2, 3⟩ "c2" =
          ⟨[7], [("c1", 8)], 2, 3⟩)) :=
  ⟨pool_size_invariant 2 3 [some 7, none] ⟨[7], [("c1", 8)], 2, 3⟩ "c1" 9
      (by decide) (by decide) (by decide),
    pool_size_invariant 2 3 [some 7, none] ⟨[7], [("c1", 8)], 2, 3⟩ "c2" 9
      (by decide) (by decide) (by decide)⟩

namespace ErrorHandler

theorem cbRun_altTrace (cfg : CBConfig) (hth : 2 ≤ cfg.threshold) :
    ∀ n, cbRun cfg cbInit (altTrace n) = cbInit := by
  intro n
  induction n with
  | zero => rfl
  | succ n ih =>
    have h1 : cbCall cfg cbInit 0 .failure = (.errored, ⟨1, 0, .closed⟩) := by
      have : ¬ 1 ≥ cfg.threshold := by omega
      simp [cbCall, cbInit, this]
    have h2 : cbCall cfg ⟨1, 0, .closed⟩ 0 .success =
        (.ok, ⟨0, 0, .closed⟩) := by
      simp [cbCall]
    show cbRun cfg (cbCall cfg
      (cbCall cfg cbInit 0 .failure).2 0 .success).2 (altTrace n) = cbInit
    rw [h1]
    show cbRun cfg (cbCall cfg ⟨1, 0, .closed⟩ 0 .success).2 (altTrace n)
      = cbInit
    rw [h2]
    exact ih

end ErrorHandler

/-- C1 counterexample: breaker with `threshold = 2`, `resetTimeout = 5`.
Two failures at times 0 and 1 open it; at time 10 the elapsed time exceeds
`resetTimeout`, so the call at time 10 is the half-open trial — it fails,
yet the breaker is left *half-open*, not open (the entry reset
`failures = 0`, and one new failure stays below the threshold), and the
immediately following call at time 11 executes the underlying function
instead of being rejected fail-fast. -/
theorem cb_failed_trial_leaves_halfOpen :
    (ErrorHandler.cbRun ⟨2, 60000, 5⟩ ErrorHandler.cbInit
        [(0, .failure), (1, .failure)]).state = ErrorHandler.CBPhase.opened ∧
    ErrorHandler.cbRun ⟨2, 60000, 5⟩ ErrorHandler.cbInit
        [(0, .failure), (1, .failure), (10, .failure)] =
      ⟨1, 10, ErrorHandler.CBPhase.halfOpen⟩ ∧
    (ErrorHandler.cbRun ⟨2, 60000, 5⟩ ErrorHandler.cbInit
        [(0, .failure), (1, .failure), (10, .failure)]).state ≠
      ErrorHandler.CBPhase.opened ∧
    (ErrorHandler.cbCall ⟨2, 60000, 5⟩
        (ErrorHandler.cbRun ⟨2, 60000, 5⟩ ErrorHandler.cbInit
          [(0, .failure), (1, .failure), (10, .failure)]) 11 .failure).1 ≠
      ErrorHandler.CBResult.rejected := by
  refine ⟨by decide, by decide, by decide, by decide⟩

/-- C1 (amended): a call arriving while the breaker is open with
`resetTimeout` elapsed becomes the half-open trial (it executes rather
than being rejected, with the failure counter reset to 0).  A successful
trial closes the breaker; a failed trial records one failure and re-opens
the breaker only when `threshold ≤ 1` — for `threshold ≥ 2` the breaker
stays half-open, so further calls keep executing the underlying
function. -/
theorem cb_halfOpen_trial_decides (cfg : ErrorHandler.CBConfig)
    (s : ErrorHandler.CBState) (now : Nat)
    (outcome : ErrorHandler.CBOutcome)
    (hopen : s.state = .opened)
    (helapsed : now - s.lastFailureTime > cfg.resetTimeout) :
    (ErrorHandler.cbCall cfg s now outcome).1 ≠
        ErrorHandler.CBResult.rejected ∧
    (outcome = .success →
      ErrorHandler.cbCall cfg s now outcome =
        (.ok, ⟨0, s.lastFailureTime, .closed⟩)) ∧
    (outcome = .failure →
      ErrorHandler.cbCall cfg s now outcome =
        (.errored, ⟨1, now,
          if 1 ≥ cfg.threshold then .opened else .halfOpen⟩)) := by
  unfold ErrorHandler.cbCall
  have hcond : s.state = ErrorHandler.CBPhase.opened ∧
      now - s.lastFailureTime > cfg.resetTimeout := ⟨hopen, helapsed⟩
  rw [if_pos hcond]
  refine ⟨?_, ?_, ?_⟩
  · cases outcome <;> simp
  · intro h
    subst h
    simp
  · intro h
    subst h
    by_cases hth : 1 ≥ cfg.threshold <;> simp [hth]

theorem cb_halfOpen_trial_decides_witness :
    (ErrorHandler.cbCall ⟨2, 60000, 5⟩ ⟨2, 1, .opened⟩ 10 .failure).1 ≠
        ErrorHandler.CBResult.rejected ∧
    ((ErrorHandler.CBOutcome.failure = .success →
      ErrorHandler.cbCall ⟨2, 60000, 5⟩ ⟨2, 1, .opened⟩ 10 .failure =
        (.ok, ⟨0, 1, .closed⟩))) ∧
    ((ErrorHandler.CBOutcome.failure = .failure →
      ErrorHandler.cbCall ⟨2, 60000, 5⟩ ⟨2, 1, .opened⟩ 10 .failure =
        (.errored, ⟨1, 10,
          if 1 ≥ (2 : Nat) then .opened else .halfOpen⟩))) :=
  cb_halfOpen_trial_decides ⟨2, 60000, 5⟩ ⟨2, 1, .opened⟩ 10 .failure
    rfl (by decide)

/-- C9: a wrapped call that completes successfully always leaves the
breaker closed with `failures = 0`; a call can leave the breaker open only
if it was already open or the call itself failed with the failure count
reaching `threshold`; consequently, failures that are never consecutive
(each followed by a success) never trip a breaker with `threshold ≥ 2`. -/
theorem cb_success_resets_failures :
    (∀ (cfg : ErrorHandler.CBConfig) (s : ErrorHandler.CBState)
        (now : Nat) (outcome : ErrorHandler.CBOutcome),
      (ErrorHandler.cbCall cfg s now outcome).1 = .ok →
        (ErrorHandler.cbCall cfg s now outcome).2.failures = 0 ∧
        (ErrorHandler.cbCall cfg s now outcome).2.state = .closed) ∧
    (∀ (cfg : ErrorHandler.CBConfig) (s : ErrorHandler.CBState)
        (now : Nat) (outcome : ErrorHandler.CBOutcome),
      (ErrorHandler.cbCall cfg s now outcome).2.state = .opened →
        s.state = .opened ∨
        ((ErrorHandler.cbCall cfg s now outcome).1 = .errored ∧
          (ErrorHandler.cbCall cfg s now outcome).2.failures ≥
            cfg.threshold)) ∧
    (∀ cfg : ErrorHandler.CBConfig, 2 ≤ cfg.threshold → ∀ n,
      (ErrorHandler.cbRun cfg ErrorHandler.cbInit
        (ErrorHandler.altTrace n)).state = .closed) := by
  refine ⟨?_, ?_, ?_⟩
  · intro cfg s now outcome
    unfold ErrorHandler.cbCall
    by_cases hr : s.state = ErrorHandler.CBPhase.opened ∧
        now - s.lastFailureTime > cfg.resetTimeout
    · rw [if_pos hr]
      cases outcome <;> simp
    · rw [if_neg hr]
      cases hstate : s.state <;> cases outcome <;> simp [hstate]
  · intro cfg s now outcome
    unfold ErrorHandler.cbCall
    by_cases hr : s.state = ErrorHandler.CBPhase.opened ∧
        now - s.lastFailureTime > cfg.resetTimeout
    · rw [if_pos hr]
      cases outcome
      · simp
      · by_cases hth : 1 ≥ cfg.threshold
        · simp [hth]
        · simp [hth]
    · rw [if_neg hr]
      cases hstate : s.state
      · cases outcome
        · simp [hstate]
        · by_cases hth : s.failures + 1 ≥ cfg.threshold <;>
            simp [hstate, hth]
      · simp [hstate]
      · cases outcome
        · simp [hstate]
        · by_cases hth : s.failures + 1 ≥ cfg.threshold <;>
            simp [hstate, hth]
  · intro cfg hth n
    rw [ErrorHandler.cbRun_altTrace cfg hth n]
    rfl

theorem cb_success_resets_failures_witness :
    (ErrorHandler.cbRun ⟨2, 60000, 30000⟩ ErrorHandler.cbInit
      (ErrorHandler.altTrace 3)).state = .closed :=
  cb_success_resets_failures.2.2 ⟨2, 60000, 30000⟩ (by decide) 3

/-- C4: with `windowMs = 1000`, `maxRequests = 3`, four calls for one
identifier within 1000ms return `[true, true, true, false]`, and a fifth
call after the window has fully elapsed (≥ 1000ms past the last accepted
request) returns `true` again. -/
theorem rateLimiter_window_sequence (id : String) (t1 t2 t3 t4 t5 : Nat)
    (h12 : t1 ≤ t2) (h23 : t2 ≤ t3) (h34 : t3 ≤ t4)
    (hwin : t4 - t1 < 1000) (h45 : t4 ≤ t5)
    (helapsed : t3 + 1000 ≤ t5) :
    (RateLimiter.runCalls ⟨[], 1000, 3⟩ id [t1, t2, t3, t4, t5]).1 =
      [true, true, true, false, true] := by
  have s1 : RateLimiter.isAllowed ⟨[], 1000, 3⟩ id t1 =
      (true, ⟨[(id, [t1])], 1000, 3⟩) := by
    simp [RateLimiter.isAllowed, RateLimiter.recentRequests,
      JsMap.get, JsMap.set, List.find?]
  have e1 : t2 - t1 < 1000 := by omega
  have s2 : RateLimiter.isAllowed ⟨[(id, [t1])], 1000, 3⟩ id t2 =
      (true, ⟨[(id, [t1, t2])], 1000, 3⟩) := by
    simp [RateLimiter.isAllowed, RateLimiter.recentRequests,
      JsMap.get, JsMap.set, List.find?, List.filter, e1]
  have e2 : t3 - t1 < 1000 := by omega
  have e3 : t3 - t2 < 1000 := by omega
  have s3 : RateLimiter.isAllowed ⟨[(id, [t1, t2])], 1000, 3⟩ id t3 =
      (true, ⟨[(id, [t1, t2, t3])], 1000, 3⟩) := by
    simp [RateLimiter.isAllowed, RateLimiter.recentRequests,
      JsMap.get, JsMap.set, List.find?, List.filter, e2, e3]
  have e4 : t4 - t1 < 1000 := by omega
  have e5 : t4 - t2 < 1000 := by omega
  have e6 : t4 - t3 < 1000 := by omega
  have s4 : RateLimiter.isAllowed ⟨[(id, [t1, t2, t3])], 1000, 3⟩ id t4 =
      (false, ⟨[(id, [t1, t2, t3])], 1000, 3⟩) := by
    simp [RateLimiter.isAllowed, RateLimiter.recentRequests,
      JsMap.get, JsMap.set, List.find?, List.filter, e4, e5, e6]
  have e7 : ¬ (t5 - t1 < 1000) := by omega
  have e8 : ¬ (t5 - t2 < 1000) := by omega
  have e9 : ¬ (t5 - t3 < 1000) := by omega
  have s5 : RateLimiter.isAllowed ⟨[(id, [t1, t2, t3])], 1000, 3⟩ id t5 =
      (true, ⟨[(id, [t5])], 1000, 3⟩) := by
    simp [RateLimiter.isAllowed, RateLimiter.recentRequests,
      JsMap.get, JsMap.set, List.find?, List.filter, e7, e8, e9]
  simp [RateLimiter.runCalls, s1, s2, s3, s4, s5]

theorem rateLimiter_window_sequence_witness :
    (RateLimiter.runCalls ⟨[], 1000, 3⟩ "tool" [0, 1, 2, 3, 1003]).1 =
      [true, true, true, false, true] :=
  rateLimiter_window_sequence "tool" 0 1 2 3 1003
    (by decide) (by decide) (by decide) (by decide) (by decide) (by decide)

/-- C5: `isAllowed` rejects exactly when the identifier's in-window
request count has reached `maxRequests`; a rejecting call returns `false`
with the limiter state (its whole request map) completely unchanged, and
an accepting call mutates only by storing the identifier's pruned list
with `now` appended. -/
theorem rateLimiter_reject_is_pure (rl : RateLimiter) (id : String)
    (now : Nat) :
    ((rl.isAllowed id now).1 = false ↔
      rl.maxRequests ≤ (rl.recentRequests id now).length) ∧
    (rl.maxRequests ≤ (rl.recentRequests id now).length →
      rl.isAllowed id now = (false, rl)) ∧
    ((rl.recentRequests id now).length < rl.maxRequests →
      rl.isAllowed id now = (true,
        { rl with requests :=
            JsMap.set rl.requests id (rl.recentRequests id now ++ [now]) })) := by
  by_cases h : (rl.recentRequests id now).length ≥ rl.maxRequests
  · refine ⟨?_, fun _ => ?_, fun hc => absurd h (by omega)⟩ <;>
      simp [RateLimiter.isAllowed, h]
  · refine ⟨?_, fun hc => absurd hc (by omega), fun _ => ?_⟩ <;>
      simp [RateLimiter.isAllowed, h]

theorem rateLimiter_reject_is_pure_witness :
    RateLimiter.isAllowed ⟨[("x", [0, 1, 2])], 1000, 3⟩ "x" 5 =
      (false, ⟨[("x", [0, 1, 2])], 1000, 3⟩) :=
  (rateLimiter_reject_is_pure ⟨[("x", [0, 1, 2])], 1000, 3⟩ "x" 5).2.1
    (by decide)

/-- Two tag lists that are sorted by tag name, are permutations of each
other, and have pairwise-distinct tag names are equal. -/
theorem sorted_tags_perm_eq :
    ∀ {l₁ l₂ : List (String × String)}, l₁.Perm l₂ →
      l₁.Sorted tagLe → l₂.Sorted tagLe →
      (l₁.map Prod.fst).Nodup → l₁ = l₂ := by
  intro l₁
  induction l₁ with
  | nil =>
    intro l₂ hp _ _ _
    exact (hp.symm.eq_nil).symm
  | cons a t ih =>
    intro l₂ hp hs₁ hs₂ hnd
    cases l₂ with
    | nil => exact absurd hp.eq_nil (by simp)
    | cons b t₂ =>
      by_cases hab : a = b
      · subst hab
        have hp' := hp.cons_inv
        have ht₁ := List.sorted_cons.mp hs₁
        have ht₂ := List.sorted_cons.mp hs₂
        have hnd' : (t.map Prod.fst).Nodup := by
          simp only [List.map_cons, List.nodup_cons] at hnd
          exact hnd.2
        rw [ih hp' ht₁.2 ht₂.2 hnd']
      · exfalso
        have hain : a ∈ b :: t₂ := hp.subset (List.mem_cons_self a t)
        have hbin : b ∈ a :: t := hp.symm.subset (List.mem_cons_self b t₂)
        have hat2 : a ∈ t₂ :=
          (List.mem_cons.mp hain).resolve_left hab
        have hbt : b ∈ t :=
          (List.mem_cons.mp hbin).resolve_left (fun he => hab he.symm)
        have hle₁ : tagLe a b := List.rel_of_sorted_cons hs₁ b hbt
        have hle₂ : tagLe b a := List.rel_of_sorted_cons hs₂ a hat2
        have hkey : a.1.data = b.1.data :=
          charListLe_antisymm a.1.data b.1.data hle₁ hle₂
        have hkey' : a.1 = b.1 := by
          cases ha : a.1 with
          | mk da =>
            cases hb : b.1 with
            | mk db =>
              rw [ha, hb] at hkey
              simp at hkey
              rw [hkey]
        simp only [List.map_cons, List.nodup_cons] at hnd
        exact hnd.1 (hkey' ▸ List.mem_map_of_mem Prod.fst hbt)

theorem sortTags_perm {l₁ l₂ : List (String × String)} (h : l₁.Perm l₂)
    (hnd : (l₁.map Prod.fst).Nodup) : sortTags l₁ = sortTags l₂ := by
  refine sorted_tags_perm_eq
    ((List.perm_insertionSort tagLe l₁).trans
      (h.trans (List.perm_insertionSort tagLe l₂).symm))
    (List.sorted_insertionSort tagLe l₁)
    (List.sorted_insertionSort tagLe l₂) ?_
  exact (((List.perm_insertionSort tagLe l₁).map Prod.fst).nodup_iff).mpr hnd

theorem getKey_perm (name : String) {l₁ l₂ : List (String × String)}
    (h : l₁.Perm l₂) (hnd : (l₁.map Prod.fst).Nodup) :
    getKey name l₁ = getKey name l₂ := by
  unfold getKey
  have hlen := h.length_eq
  by_cases he : l₁.isEmpty
  · have he₂ : l₂.isEmpty := by
      cases l₂ with
      | nil => rfl
      | cons x xs =>
        cases l₁ with
        | nil => simp at hlen
        | cons y ys => simp [List.isEmpty] at he
    rw [if_pos he, if_pos he₂]
  · have he₂ : ¬ l₂.isEmpty := by
      cases l₂ with
      | nil =>
        cases l₁ with
        | nil => exact absurd rfl he
        | cons y ys => simp at hlen
      | cons x xs => simp [List.isEmpty]
    rw [if_neg he, if_neg he₂, sortTags_perm h hnd]

/-- C10: metric keys are insensitive to tag ordering — for any two tag
records equal as name/value sets (permutations with distinct tag names),
`getKey` produces the same key, so `increment`, `gauge`, `histogram` and
`recordOperation` update the same entry and `getOperationStats` returns
the same result. -/
theorem metrics_tag_order_insensitive (name : String)
    (l₁ l₂ : List (String × String)) (hperm : l₁.Perm l₂)
    (hnd : (l₁.map Prod.fst).Nodup) :
    getKey name l₁ = getKey name l₂ ∧
    (∀ (mc : MetricsCollector) (v : Int),
      mc.increment name v l₁ = mc.increment name v l₂) ∧
    (∀ (mc : MetricsCollector) (v : Int),
      mc.gauge name v l₁ = mc.gauge name v l₂) ∧
    (∀ (mc : MetricsCollector) (v : Int),
      mc.histogram name v l₁ = mc.histogram name v l₂) ∧
    (∀ (mc : MetricsCollector) (d : Nat) (err : Bool),
      mc.recordOperation name d err l₁ = mc.recordOperation name d err l₂) ∧
    (∀ mc : MetricsCollector,
      mc.getOperationStats name l₁ = mc.getOperationStats name l₂) := by
  have hk := getKey_perm name hperm hnd
  refine ⟨hk, ?_, ?_, ?_, ?_, ?_⟩
  · intro mc v
    simp [MetricsCollector.increment, hk]
  · intro mc v
    simp [MetricsCollector.gauge, hk]
  · intro mc v
    simp [MetricsCollector.histogram, hk]
  · intro mc d err
    simp [MetricsCollector.recordOperation, hk]
  · intro mc
    simp [MetricsCollector.getOperationStats, hk]

theorem metrics_tag_order_insensitive_witness :
    getKey "op" [("b", "2"), ("a", "1")] =
      getKey "op" [("a", "1"), ("b", "2")] ∧
    MetricsCollector.empty.recordOperation "op" 10 false
        [("b", "2"), ("a", "1")] =
      MetricsCollector.empty.recordOperation "op" 10 false
        [("a", "1"), ("b", "2")] :=
  ⟨(metrics_tag_order_insensitive "op" [("b", "2"), ("a", "1")]
      [("a", "1"), ("b", "2")]
      (List.Perm.swap ("a", "1") ("b", "2") []) (by decide)).1,
    (metrics_tag_order_insensitive "op" [("b", "2"), ("a", "1")]
      [("a", "1"), ("b", "2")]
      (List.Perm.swap ("a", "1") ("b", "2") [])
      (by decide)).2.2.2.2.1 MetricsCollector.empty 10 false⟩

theorem ledger_caps_never_exceeded_witness :
    ResourceManager.WithinCaps (ResourceManager.applyOps
        ResourceManager.empty
        [.regProcess "a" ⟨false, false⟩, .regTimer "t",
          .regConnection "c" ⟨false⟩, .regFileHandle "f" ⟨false⟩,
          .unregProcess "a"]) ∧
    ResourceManager.registerProcess ResourceManager.atAllCaps "x"
        ⟨false, false⟩ =
      .error (.error "Maximum number of processes reached") ∧
    ResourceManager.registerTimer ResourceManager.atAllCaps "x" =
      .error (.error "Maximum number of timers reached") ∧
    ResourceManager.registerConnection ResourceManager.atAllCaps "x"
        ⟨false⟩ =
      .error (.error "Maximum number of connections reached") ∧
    ResourceManager.registerFileHandle ResourceManager.atAllCaps "x"
        ⟨false⟩ =
      .error (.error "Maximum number of file handles reached") :=
  ledger_caps_never_exceeded
    [.regProcess "a" ⟨false, false⟩, .regTimer "t",
      .regConnection "c" ⟨false⟩, .regFileHandle "f" ⟨false⟩,
      .unregProcess "a"]
    ResourceManager.atAllCaps "x" ⟨false, false⟩ ⟨false⟩ ⟨false⟩
    (by decide) (by decide) (by decide) (by decide)
